import Mathlib

/-!
# Verification of the document-question-answering assistant core

Shallow embedding of the retrieval/answer core (`QAEngine`, `buildContext`
from `src/lib/qa`-style module) and of the knowledge-graph route
(`src/app/api/graph/route.ts`), with theorems settling the claims about
threshold/fallback filtering, retrieval traces, reference numbering, graph
edge aggregation, truncation/sizing, and error handling.

Conventions of the embedding:
* TypeScript numbers are modelled as `ℚ` (similarity scores, thresholds,
  edge weights); `Math.log10` — the one transcendental the core uses — is
  passed in as an abstract parameter `lg : ℕ → ℚ` (it is only ever applied
  to `chunkCount + 1`).
* Fallible remote calls are modelled as explicit function parameters; the
  graph route's vector search, which may reject, returns `Except String`.
* Every remote call issued is accumulated in an explicit call log, so that
  "zero remote calls are made" is a statement about the model.
-/

namespace DocQA

/-- A content chunk as produced by the external indexing pipeline.
`pageId` is optional: `buildContext` falls back to `id` via `?? `. -/
structure Chunk where
  id : String
  pageId : Option String
  title : String
  heading : Option String := none
  headingPath : Option String := none
  spaceKey : Option String := none
  sourceUrl : Option String := none
  content : String := ""
deriving DecidableEq, Repr

/-- A vector-search hit: a chunk paired with its similarity score. -/
structure SearchResult where
  chunk : Chunk
  score : ℚ
deriving DecidableEq, Repr

/-- `AnswerReferences` from the QA engine module. -/
structure Reference where
  index : Nat
  title : String
  url : Option String
  score : Option ℚ
  pageId : Option String
deriving DecidableEq, Repr

/-- One row of the retrieval trace (`RetrievalTraceEntry`). -/
structure RetrievalTraceEntry where
  index : Nat
  id : String
  score : ℚ
  title : String
  heading : Option String
  headingPath : Option String
  spaceKey : Option String
  included : Bool
deriving DecidableEq, Repr

/-- `RetrievalTrace` attached to an answer. -/
structure RetrievalTrace where
  threshold : ℚ
  fallbackApplied : Bool
  fallbackThreshold : Option ℚ
  results : List RetrievalTraceEntry
deriving DecidableEq, Repr

/-! ## Threshold / fallback filtering (`QAEngine.prepare`, filtering part) -/

/-- `FALLBACK_SIMILARITY_THRESHOLD` validity check from `prepare`:
`Number.isFinite(x) && x > 0 && x < 1`.  Over `ℚ` every value is finite,
so only the range test remains. -/
def fallbackThresholdValid (fb : ℚ) : Bool :=
  decide (0 < fb) && decide (fb < 1)

/-- The filtering portion of `QAEngine.prepare` (source lines 151–167):
primary threshold filter, then — when it is empty, the raw list is not,
and the fallback threshold is valid — a fallback-threshold re-filter,
then the top-1 fallback (`relevantResults = [rawResults[0]]`, rendered as
`raw.take 1`, which the guard `rawResults.length > 0` makes a singleton).
Returns the results actually used together with `fallbackApplied`. -/
def prepareFilter (thr fb : ℚ) (raw : List SearchResult) : List SearchResult × Bool :=
  let relevantResults := raw.filter fun r => decide (thr ≤ r.score)
  if relevantResults.length = 0 ∧ raw.length > 0 ∧ fallbackThresholdValid fb = true then
    let fallbackResults := raw.filter fun r => decide (fb ≤ r.score)
    if fallbackResults.length > 0 then (fallbackResults, true)
    else (raw.take 1, true)
  else (relevantResults, false)

/-- Restatement of claim C1 in its own words, to be compared with
`prepareFilter`: the used results are the primary-threshold survivors;
when the primary filter is empty, the raw list non-empty and the fallback
threshold strictly between 0 and 1, the fallback-threshold survivors are
used instead, and when those are also empty, exactly the first (highest
ranked) raw result; the two fallback branches set `fallbackApplied`;
an empty raw list uses nothing and does not set `fallbackApplied`. -/
def specUsedResults (thr fb : ℚ) (raw : List SearchResult) : List SearchResult × Bool :=
  if raw = [] then ([], false)
  else
    let primary := raw.filter fun r => decide (thr ≤ r.score)
    if primary ≠ [] then (primary, false)
    else if 0 < fb ∧ fb < 1 then
      let fallback := raw.filter fun r => decide (fb ≤ r.score)
      if fallback ≠ [] then (fallback, true) else (raw.take 1, true)
    else (primary, false)

theorem prepareFilter_eq_specUsedResults (thr fb : ℚ) (raw : List SearchResult) :
    prepareFilter thr fb raw = specUsedResults thr fb raw := by
  unfold prepareFilter specUsedResults fallbackThresholdValid
  rcases raw with _ | ⟨r, rest⟩
  · simp
  · simp only [List.length_cons, ne_eq, reduceCtorEq, not_false_eq_true]
    by_cases hp : (List.filter (fun r => decide (thr ≤ r.score)) (r :: rest)) = []
    · by_cases hv : (0 : ℚ) < fb ∧ fb < 1
      · by_cases hf : (List.filter (fun r => decide (fb ≤ r.score)) (r :: rest)) = []
        · simp [hp, hv, hf, List.length_eq_zero]
        · simp [hp, hv, hf, List.length_eq_zero, List.length_pos]
      · simp [hp, hv, List.length_eq_zero]
    · simp [hp, List.length_eq_zero, List.length_pos]

/-! ## Context assembly (`buildContext`, source lines 53–85) -/

/-- Reference/deduplication key: `result.chunk.pageId ?? result.chunk.id`. -/
def resKey (r : SearchResult) : String :=
  r.chunk.pageId.getD r.chunk.id

/-- The reference object pushed for the first chunk of a page
(source lines 63–69). -/
def mkReference (idx : Nat) (r : SearchResult) : Reference :=
  { index := idx
    title := r.chunk.title
    url := r.chunk.sourceUrl
    score := some r.score
    pageId := some (resKey r) }

/-- One context section (source lines 72–78): header, optional source line,
content, joined by newlines; `.filter(Boolean)` drops absent entries and
empty strings (an empty `sourceUrl` is falsy in the conditional, and an
empty `content` is dropped by the filter). -/
def sectionText (idx : Nat) (r : SearchResult) : String :=
  String.intercalate "\n"
    (([some ("Reference [" ++ toString idx ++ "] — " ++ r.chunk.title),
       (r.chunk.sourceUrl.bind fun u => if u = "" then none else some ("Source: " ++ u)),
       some r.chunk.content].filterMap id).filter fun s => decide (s ≠ ""))

/-- The loop body of `buildContext`: walks the results, keeping the
`references` array, the `seen` map (insertion-ordered, as a JS `Map`) and
the accumulated sections. -/
def buildContextAux :
    List Reference → List (String × Nat) → List String →
    List SearchResult → List Reference × List (String × Nat) × List String
  | refs, seen, secs, [] => (refs, seen, secs)
  | refs, seen, secs, r :: rest =>
    let key := resKey r
    match seen.lookup key with
    | some i => buildContextAux refs seen (secs ++ [sectionText i r]) rest
    | none =>
      let idx := refs.length + 1
      buildContextAux (refs ++ [mkReference idx r]) (seen ++ [(key, idx)])
        (secs ++ [sectionText idx r]) rest

/-- `buildContext`: context text (sections joined by the visible separator)
and the deduplicated, numbered references. -/
def buildContext (results : List SearchResult) : String × List Reference :=
  let st := buildContextAux [] [] [] results
  (String.intercalate "\n\n---\n\n" st.2.2, st.1)

/-- First occurrence of each deduplication key, in order (claim-side
description of which results introduce references). -/
def firstOccsAux : List String → List SearchResult → List SearchResult
  | _, [] => []
  | seen, r :: rest =>
    if resKey r ∈ seen then firstOccsAux seen rest
    else r :: firstOccsAux (seen ++ [resKey r]) rest

/-- Results that introduce a new deduplication key, in first-seen order. -/
def firstOccs (rs : List SearchResult) : List SearchResult :=
  firstOccsAux [] rs

/-- The distinct deduplication keys (pageId, or id when absent) of a result
list, in first-seen order. -/
def distinctKeys (rs : List SearchResult) : List String :=
  (firstOccs rs).map resKey

/-- Claim-side reference list: the i-th first-occurrence result becomes the
reference with 1-based index i (starting above `n`). -/
def numberFrom : Nat → List SearchResult → List Reference
  | _, [] => []
  | n, r :: rest => mkReference (n + 1) r :: numberFrom (n + 1) rest

theorem lookup_isSome_iff_mem {β : Type} (seen : List (String × β)) (key : String) :
    (seen.lookup key).isSome = true ↔ key ∈ seen.map Prod.fst := by
  induction seen with
  | nil => simp [List.lookup]
  | cons p rest ih =>
    obtain ⟨k, v⟩ := p
    by_cases h : key = k
    · subst h
      simp [List.lookup]
    · have hbeq : (key == k) = false := by
        simpa using h
      simp [List.lookup, hbeq, ih, h]

theorem buildContextAux_refs (rs : List SearchResult) :
    ∀ (refs : List Reference) (seen : List (String × Nat)) (secs : List String),
      (buildContextAux refs seen secs rs).1
        = refs ++ numberFrom refs.length (firstOccsAux (seen.map Prod.fst) rs) := by
  induction rs with
  | nil => intro refs seen secs; simp [buildContextAux, numberFrom, firstOccsAux]
  | cons r rest ih =>
    intro refs seen secs
    cases hlk : seen.lookup (resKey r) with
    | some i =>
      have hmem : resKey r ∈ seen.map Prod.fst := by
        rw [← lookup_isSome_iff_mem]
        simp [hlk]
      simp only [buildContextAux, hlk, firstOccsAux, if_pos hmem]
      exact ih refs seen (secs ++ [sectionText i r])
    | none =>
      have hmem : ¬ resKey r ∈ seen.map Prod.fst := by
        rw [← lookup_isSome_iff_mem]
        simp [hlk]
      simp only [buildContextAux, hlk, firstOccsAux, if_neg hmem]
      rw [ih]
      simp [numberFrom, List.append_assoc]

theorem numberFrom_map_index :
    ∀ (n : Nat) (l : List SearchResult),
      (numberFrom n l).map Reference.index = List.range' (n + 1) l.length := by
  intro n l
  induction l generalizing n with
  | nil => simp [numberFrom]
  | cons r rest ih => simp [numberFrom, mkReference, List.range', ih]

theorem numberFrom_map_pageId :
    ∀ (n : Nat) (l : List SearchResult),
      (numberFrom n l).map Reference.pageId = l.map (fun r => some (resKey r)) := by
  intro n l
  induction l generalizing n with
  | nil => simp [numberFrom]
  | cons r rest ih => simp [numberFrom, mkReference, ih]

theorem mem_map_resKey_firstOccsAux (k : String) :
    ∀ (rs : List SearchResult) (seen : List String),
      k ∈ (firstOccsAux seen rs).map resKey ↔ (k ∉ seen ∧ ∃ r ∈ rs, resKey r = k) := by
  intro rs
  induction rs with
  | nil => intro seen; simp [firstOccsAux]
  | cons r rest ih =>
    intro seen
    by_cases h : resKey r ∈ seen
    · rw [firstOccsAux, if_pos h, ih]
      constructor
      · rintro ⟨hk, r', hr', hkey⟩
        exact ⟨hk, r', List.mem_cons_of_mem _ hr', hkey⟩
      · rintro ⟨hk, r', hr', hkey⟩
        rcases List.mem_cons.mp hr' with rfl | hr'
        · exact absurd (hkey ▸ h) hk
        · exact ⟨hk, r', hr', hkey⟩
    · rw [firstOccsAux, if_neg h]
      simp only [List.map_cons, List.mem_cons, ih, List.mem_append, List.mem_singleton]
      constructor
      · rintro (rfl | ⟨hk, r', hr', hkey⟩)
        · exact ⟨h, r, Or.inl rfl, rfl⟩
        · exact ⟨fun hs => hk (Or.inl hs), r', Or.inr hr', hkey⟩
      · rintro ⟨hk, r', rfl | hr', hkey⟩
        · exact Or.inl hkey.symm
        · by_cases hkr : k = resKey r
          · exact Or.inl hkr
          · exact Or.inr ⟨by simp [hk, hkr], r', hr', hkey⟩

theorem nodup_map_resKey_firstOccsAux :
    ∀ (rs : List SearchResult) (seen : List String),
      ((firstOccsAux seen rs).map resKey).Nodup := by
  intro rs
  induction rs with
  | nil => intro seen; simp [firstOccsAux]
  | cons r rest ih =>
    intro seen
    by_cases h : resKey r ∈ seen
    · rw [firstOccsAux, if_pos h]; exact ih seen
    · rw [firstOccsAux, if_neg h]
      simp only [List.map_cons, List.nodup_cons]
      refine ⟨fun hmem => ?_, ih _⟩
      rcases (mem_map_resKey_firstOccsAux _ _ _).mp hmem with ⟨hk, -⟩
      simp at hk

/-! ## Retrieval trace (`QAEngine.prepare`, source lines 169–184) -/

/-- `Number(score.toFixed(4))`: rounding to 4 decimal places. -/
def round4 (q : ℚ) : ℚ :=
  ((round (q * 10000) : ℤ) : ℚ) / 10000

/-- One `RetrievalTraceEntry` as built in the `rawResults.map` call. -/
def mkTraceEntry (idx : Nat) (r : SearchResult) (included : Bool) : RetrievalTraceEntry :=
  { index := idx
    id := r.chunk.id
    score := round4 r.score
    title := r.chunk.title
    heading := r.chunk.heading
    headingPath := r.chunk.headingPath
    spaceKey := r.chunk.spaceKey
    included := included }

/-- The retrieval trace built over the entire raw result list: `included`
is membership of the chunk id in the ids of the results actually used
(`includedIds.has(result.chunk.id)`). -/
def mkTrace (thr fb : ℚ) (raw : List SearchResult) : RetrievalTrace :=
  let pf := prepareFilter thr fb raw
  let includedIds := pf.1.map fun r => r.chunk.id
  { threshold := thr
    fallbackApplied := pf.2
    fallbackThreshold := if pf.2 && fallbackThresholdValid fb then some fb else none
    results := raw.enum.map fun p => mkTraceEntry (p.1 + 1) p.2 (includedIds.contains p.2.chunk.id) }

/-! ## The QA engine (`QAEngine`) with an explicit remote-call log -/

/-- A remote call issued by the engine (vector search or model provider). -/
inductive RemoteCall
  | search (query : String) (k : Nat)
  | complete (provider : String)
  | completeStream (provider : String)
deriving DecidableEq, Repr

/-- `throw new Error('Question must not be empty')`. -/
inductive QAError
  | inputError (message : String)
deriving DecidableEq, Repr

/-- The arguments handed to `buildProviderMessages`.  The prompt-formatting
module is outside the core under verification; messages are modelled as
the record of what the engine passes to it. -/
structure ProviderMessages where
  question : String
  chatHistory : Option String
  instructions : String
  contextSections : List (String × String)
deriving DecidableEq, Repr

/-- External collaborators: the vector store and the model provider. -/
structure QAEnv where
  search : String → Nat → List SearchResult
  complete : ProviderMessages → String
  completeStream : ProviderMessages → List String

/-- Engine configuration (constructor parameters and module constants). -/
structure QAConfig where
  topK : Nat
  similarityThreshold : ℚ
  fallbackThreshold : ℚ
  defaultProvider : String

/-- Placeholder for `QA_USER_PROMPT_INSTRUCTIONS` (defined in the prompt
module outside the core); only its identity matters here. -/
def qaUserPromptInstructions : String :=
  "QA_USER_PROMPT_INSTRUCTIONS"

/-- `FALLBACK_INSTRUCTIONS` (source line 87). -/
def fallbackInstructions : String :=
  qaUserPromptInstructions ++
    "\n- Retrieval context was empty; inform the user before answering from general knowledge."

/-- The caveat appended when fallback filtering fired (source line 220). -/
def suggestiveCaveat : String :=
  "\n- Retrieved context scored below the usual similarity threshold; treat it as suggestive, not definitive."

/-- `question.trim()`: strip leading and trailing whitespace.  Written
structurally over the character list so that concrete instances evaluate;
agrees with the JS `trim` on the ASCII whitespace the claims exercise. -/
def jsTrim (s : String) : String :=
  String.mk (((s.data.dropWhile Char.isWhitespace).reverse.dropWhile Char.isWhitespace).reverse)

/-- What `prepare` returns on success. -/
structure PrepareResult where
  messages : ProviderMessages
  references : List Reference
  retrievalTrace : RetrievalTrace
deriving DecidableEq, Repr

/-- `QAEngine.prepare` (source lines 145–245): empty-question guard, one
vector search, threshold/fallback filtering, trace construction, then
either the empty-context message set or the assembled context.  The second
component logs the remote calls made. -/
def prepare (env : QAEnv) (cfg : QAConfig) (question : String)
    (chatHistory : Option String) :
    Except QAError PrepareResult × List RemoteCall :=
  if jsTrim question = "" then
    (.error (.inputError "Question must not be empty"), [])
  else
    let rawResults := env.search question cfg.topK
    let pf := prepareFilter cfg.similarityThreshold cfg.fallbackThreshold rawResults
    let retrievalTrace := mkTrace cfg.similarityThreshold cfg.fallbackThreshold rawResults
    let calls := [RemoteCall.search question cfg.topK]
    if pf.1 = [] then
      (.ok { messages :=
               { question := question
                 chatHistory := chatHistory
                 instructions := fallbackInstructions
                 contextSections :=
                   [("Retrieval Context",
                     "No relevant Confluence context was retrieved above the similarity threshold.")] }
             references := []
             retrievalTrace := retrievalTrace }, calls)
    else
      let bc := buildContext pf.1
      let instructions :=
        if pf.2 then qaUserPromptInstructions ++ suggestiveCaveat else qaUserPromptInstructions
      (.ok { messages :=
               { question := question
                 chatHistory := chatHistory
                 instructions := instructions
                 contextSections := [("Retrieval Context", bc.1)] }
             references := bc.2
             retrievalTrace := retrievalTrace }, calls)

/-- The engine's blocking answer (`answerQuestion`). -/
structure AnswerResponse where
  answer : String
  references : List Reference
  retrievalTrace : Option RetrievalTrace
deriving DecidableEq, Repr

/-- `QAEngine.answerQuestion`: prepare, resolve provider, blocking
completion, empty-text substitution. -/
def answerQuestion (env : QAEnv) (cfg : QAConfig) (question : String)
    (chatHistory : Option String) (providerOverride : Option String) :
    Except QAError AnswerResponse × List RemoteCall :=
  match prepare env cfg question chatHistory with
  | (.error e, calls) => (.error e, calls)
  | (.ok pr, calls) =>
    let provider := providerOverride.getD cfg.defaultProvider
    let text := env.complete pr.messages
    let answer := if text = "" then "I do not have enough information to answer that." else text
    (.ok { answer := answer
           references := pr.references
           retrievalTrace := some pr.retrievalTrace }, calls ++ [.complete provider])

/-- What `createStreamingCompletion` returns: references and trace next to
the stream handle (the stream is modelled as the provider's delta list). -/
structure StreamingCompletion where
  references : List Reference
  stream : List String
  retrievalTrace : RetrievalTrace
deriving DecidableEq, Repr

/-- `QAEngine.createStreamingCompletion`: identical preparation, then the
stream handle from the provider. -/
def createStreamingCompletion (env : QAEnv) (cfg : QAConfig) (question : String)
    (chatHistory : Option String) (providerOverride : Option String) :
    Except QAError StreamingCompletion × List RemoteCall :=
  match prepare env cfg question chatHistory with
  | (.error e, calls) => (.error e, calls)
  | (.ok pr, calls) =>
    let provider := providerOverride.getD cfg.defaultProvider
    (.ok { references := pr.references
           stream := env.completeStream pr.messages
           retrievalTrace := pr.retrievalTrace }, calls ++ [.completeStream provider])

/-! ## The knowledge-graph route (`src/app/api/graph/route.ts`) -/

/-- A page entry of `data/vector-cache.json`. -/
structure VectorCacheEntry where
  pageId : String
  pageTitle : String
  spaceKey : Option String
  chunkCount : Nat
  chunkIds : List String
deriving DecidableEq, Repr

/-- A node of the returned graph. -/
structure GraphNode where
  id : String
  label : String
  size : ℚ
  chunkCount : Nat
  spaceKey : Option String
deriving DecidableEq, Repr

/-- An edge of the returned graph. -/
structure GraphEdge where
  source : String
  target : String
  weight : ℚ
deriving DecidableEq, Repr

/-- The route's possible JSON responses: the graph, the 404 for an unknown
seed, or the 500 produced by the catch-all handler. -/
inductive GraphResponse
  | ok (nodes : List GraphNode) (edges : List GraphEdge)
  | notFound (error : String)
  | serverError (error : String)
deriving DecidableEq, Repr

/-- The `pages` record of the cache file, insertion-ordered. -/
abbrev PageMap := List (String × VectorCacheEntry)

/-- `store.search`, which may reject (modelled as `Except`). -/
abbrev GraphSearch := String → Nat → Except String (List SearchResult)

/-- The `pageEdges` map: canonical id pair (the source encodes it as the
string `a + "|" + b`) to accumulated weight, insertion-ordered. -/
abbrev EdgeMap := List ((String × String) × ℚ)

/-- Log of `store.search(query, k)` calls actually issued. -/
abbrev CallLog := List (String × Nat)

/-- The route reads `r.chunk.pageId` without a fallback; a chunk without
the field behaves as the JS string `"undefined"` in every comparison, key
and index lookup the route performs, which this projection mirrors. -/
def chunkPageId (c : Chunk) : String :=
  c.pageId.getD "undefined"

/-- Canonical unordered edge key: lexicographically smaller page id first
(source lines 131 and 160).  The JS `<` on strings is the lexicographic
order on their character sequences, written here on the underlying
character lists. -/
def edgeKey (a b : String) : String × String :=
  if a.data < b.data then (a, b) else (b, a)

/-- `pageEdges.set(key, (pageEdges.get(key) ?? 0) + w)`: update in place
when the key is present (JS `Map` keeps its position), append otherwise. -/
def bumpEdge : EdgeMap → (String × String) → ℚ → EdgeMap
  | [], key, w => [(key, w)]
  | (k, v) :: rest, key, w =>
    if k = key then (k, v + w) :: rest else (k, v) :: bumpEdge rest key w

/-- A node as first materialized from the cache entry, with the
discovery-time size `Math.max(1, Math.min(10, chunkCount))`. -/
def mkNode (p : VectorCacheEntry) : GraphNode :=
  { id := p.pageId
    label := p.pageTitle
    size := max 1 (min 10 (p.chunkCount : ℚ))
    chunkCount := p.chunkCount
    spaceKey := p.spaceKey }

/-- Body of the first-pass result loop (source lines 125–145): skip the
seed itself and sub-threshold scores, accumulate the canonical edge, and
materialize the neighbor node when it is in the cache and not yet known.
(`r.score ?? 0` is the score itself: the store's results always carry one.) -/
def processSeedResult (pages : PageMap) (seedId : String) (thr : ℚ)
    (st : EdgeMap × List GraphNode) (r : SearchResult) : EdgeMap × List GraphNode :=
  let neighborPageId := chunkPageId r.chunk
  if neighborPageId = seedId then st
  else if r.score < thr then st
  else
    let edges := bumpEdge st.1 (edgeKey seedId neighborPageId) r.score
    let nodes :=
      match pages.lookup neighborPageId with
      | some nc =>
        if st.2.any (fun n => n.id == neighborPageId) then st.2 else st.2 ++ [mkNode nc]
      | none => st.2
    (edges, nodes)

/-- The `for (const q of syntheticQueries)` loop (source lines 123–146):
sequential searches; a rejected search aborts the loop with its error.
Also returns the log of search calls issued. -/
def firstPass (store : GraphSearch) (pages : PageMap) (seedId : String)
    (thr : ℚ) (topK : Nat) :
    List String → EdgeMap × List GraphNode →
    Except String (EdgeMap × List GraphNode) × CallLog
  | [], st => (.ok st, [])
  | q :: rest, st =>
    match store q topK with
    | .error e => (.error e, [(q, topK)])
    | .ok results =>
      let st' := results.foldl (processSeedResult pages seedId thr) st
      let out := firstPass store pages seedId thr topK rest st'
      (out.1, (q, topK) :: out.2)

/-- Body of the ego-network result loop (source lines 155–162): only edges
between the probed neighbor and an already-known other node, at half the
raw score, on the canonical key. -/
def processNeighborResult (knownNodes : List GraphNode) (thr : ℚ) (neighborId : String)
    (es : EdgeMap) (r : SearchResult) : EdgeMap :=
  let otherId := chunkPageId r.chunk
  if otherId == neighborId || !(knownNodes.any fun n => n.id == otherId) then es
  else if r.score < thr then es
  else bumpEdge es (edgeKey neighborId otherId) (r.score * (1 / 2))

/-- The `for (const neighborId of neighborIds)` loop (source lines
150–163): neighbors absent from the cache are skipped without a search;
a rejected search aborts with its error. -/
def secondPass (store : GraphSearch) (pages : PageMap) (knownNodes : List GraphNode)
    (thr : ℚ) (k2 : Nat) :
    List String → EdgeMap → Except String EdgeMap × CallLog
  | [], es => (.ok es, [])
  | neighborId :: rest, es =>
    match pages.lookup neighborId with
    | none => secondPass store pages knownNodes thr k2 rest es
    | some nc =>
      match store nc.pageTitle k2 with
      | .error e => (.error e, [(nc.pageTitle, k2)])
      | .ok results =>
        let es' := results.foldl (processNeighborResult knownNodes thr neighborId) es
        let out := secondPass store pages knownNodes thr k2 rest es'
        (out.1, (nc.pageTitle, k2) :: out.2)

/-- Stable insertion used to model `Array.prototype.sort` (stable per the
JS spec) with comparator `(a, b) => b.weight - a.weight`: each element is
placed after every already-placed element of weight ≥ its own. -/
def insertEdgeDesc : List GraphEdge → GraphEdge → List GraphEdge
  | [], e => [e]
  | f :: fs, e => if f.weight < e.weight then e :: f :: fs else f :: insertEdgeDesc fs e

/-- `.sort((a, b) => b.weight - a.weight)`. -/
def sortEdgesDesc (es : List GraphEdge) : List GraphEdge :=
  es.foldl insertEdgeDesc []

/-- `degree.set(id, (degree.get(id) ?? 0) + 1)`. -/
def bumpDeg : List (String × Nat) → String → List (String × Nat)
  | [], id => [(id, 1)]
  | (k, v) :: rest, id =>
    if k = id then (k, v + 1) :: rest else (k, v) :: bumpDeg rest id

/-- The degree map over the final edge list (source lines 179–183). -/
def degreeMap (edges : List GraphEdge) : List (String × Nat) :=
  edges.foldl (fun m e => bumpDeg (bumpDeg m e.source) e.target) []

/-- Final assembly (source lines 165–187): truncate nodes to `maxNodes`,
keep only edges with both endpoints surviving, sort by descending weight,
cap at `max(20, maxNodes*2)`, then resize every surviving node as
`Math.min(18, Math.max(6, (degree.get(id) ?? 1) + log10(chunkCount+1)*2))`
with the degree taken from the capped edge list. -/
def graphAssemble (lg : Nat → ℚ) (nodeList : List GraphNode) (edgeMap : EdgeMap)
    (maxNodes : Nat) : List GraphNode × List GraphEdge :=
  let limitedNodes := nodeList.take maxNodes
  let allowed := limitedNodes.map fun n => n.id
  let kept := ((edgeMap.map fun kv => GraphEdge.mk kv.1.1 kv.1.2 kv.2).filter
    fun e => allowed.contains e.source && allowed.contains e.target)
  let edges := (sortEdgesDesc kept).take (max 20 (maxNodes * 2))
  let deg := degreeMap edges
  let nodes := limitedNodes.map fun n =>
    { n with size := min 18 (max 6 ((((deg.lookup n.id).getD 1 : Nat) : ℚ) + lg (n.chunkCount + 1) * 2)) }
  (nodes, edges)

/-- The route handler `GET` (source lines 62–194), relative to an abstract
`Math.log10` stand-in `lg`, a store and the cache's page record.  The
second component logs every `store.search` call issued. -/
def graphGET (lg : Nat → ℚ) (store : GraphSearch) (pages : PageMap)
    (seedPageId : Option String) (maxSeeds topK maxNodes : Nat) (threshold : ℚ) :
    GraphResponse × CallLog :=
  match seedPageId with
  | none =>
    let pageEntries := (pages.map Prod.snd).take (min maxNodes 25)
    (.ok (pageEntries.map mkNode) [], [])
  | some sid =>
    match pages.lookup sid with
    | none => (.notFound "seedPageId not found in vector cache", [])
    | some seed =>
      let _seedChunkIds := seed.chunkIds.take maxSeeds
      let syntheticQueries :=
        [seed.pageTitle,
         match seed.spaceKey with
         | some sk => seed.pageTitle ++ " " ++ sk
         | none => seed.pageTitle]
      match firstPass store pages seed.pageId threshold topK syntheticQueries ([], [mkNode seed]) with
      | (.error e, log) => (.serverError e, log)
      | (.ok (edgeMap, nodeList), log1) =>
        let neighborIds :=
          ((nodeList.map fun n => n.id).filter fun id => !(id == seed.pageId)).take 10
        match secondPass store pages nodeList threshold (max 3 (topK / 2)) neighborIds edgeMap with
        | (.error e, log2) => (.serverError e, log1 ++ log2)
        | (.ok edgeMap2, log2) =>
          let final := graphAssemble lg nodeList edgeMap2 maxNodes
          (.ok final.1 final.2, log1 ++ log2)

/-! ## Helper lemmas about the filtering and trace stages -/

theorem prepareFilter_sublist (thr fb : ℚ) (raw : List SearchResult) :
    List.Sublist (prepareFilter thr fb raw).1 raw := by
  unfold prepareFilter
  dsimp only
  split
  · split
    · exact List.filter_sublist raw
    · exact List.take_sublist 1 raw
  · exact List.filter_sublist raw

theorem snd_mem_of_mem_enumFrom {α : Type} :
    ∀ (l : List α) (n : Nat) (p : Nat × α), p ∈ l.enumFrom n → p.2 ∈ l := by
  intro l
  induction l with
  | nil => intro n p h; simp [List.enumFrom] at h
  | cons a rest ih =>
    intro n p h
    rcases List.mem_cons.mp h with rfl | h
    · exact List.mem_cons_self _ _
    · exact List.mem_cons_of_mem _ (ih (n + 1) p h)

/-- Membership of a chunk id in the used results' id list coincides with
membership of the result itself, as long as the raw list has no duplicate
chunk ids. -/
theorem contains_id_eq_mem (thr fb : ℚ) (raw : List SearchResult)
    (h : (raw.map fun r => r.chunk.id).Nodup)
    (r : SearchResult) (hr : r ∈ raw) :
    ((prepareFilter thr fb raw).1.map fun r => r.chunk.id).contains r.chunk.id
      = decide (r ∈ (prepareFilter thr fb raw).1) := by
  have hc : ∀ (l : List String) (a : String), l.contains a = decide (a ∈ l) :=
    fun l a => List.elem_eq_mem a l
  rw [hc, decide_eq_decide]
  constructor
  · intro hmem
    rcases List.mem_map.mp hmem with ⟨r', hr', hid⟩
    have hr'raw : r' ∈ raw := (prepareFilter_sublist thr fb raw).subset hr'
    have : r' = r := List.inj_on_of_nodup_map h hr'raw hr hid
    exact this ▸ hr'
  · intro hmem
    exact List.mem_map_of_mem _ hmem

/-! ## Claims C1–C3 -/

/-- C1: the results used for the answer are the primary-threshold
survivors; when that filter is empty, the raw list non-empty and a valid
fallback threshold (strictly between 0 and 1) is configured, the
fallback-threshold survivors are used, and when those are empty too,
exactly the single first (= highest-scoring, as the raw list arrives
sorted by descending score) raw result; both fallback branches set
`fallbackApplied`, and an empty raw list uses nothing with
`fallbackApplied = false`.  Stated as: the code's filter agrees with
`specUsedResults`, the direct restatement of the claim, and on a
descending-sorted list the first element has the maximal score. -/
theorem C1_threshold_fallback_policy :
    (∀ (thr fb : ℚ) (raw : List SearchResult),
        prepareFilter thr fb raw = specUsedResults thr fb raw)
    ∧ (∀ (r : SearchResult) (rest raw : List SearchResult), raw = r :: rest →
        raw.Sorted (fun a b => b.score ≤ a.score) →
        ∀ x ∈ raw, x.score ≤ r.score) := by
  refine ⟨prepareFilter_eq_specUsedResults, ?_⟩
  rintro r rest raw rfl hs x hx
  rcases List.mem_cons.mp hx with rfl | hx
  · exact le_refl _
  · exact (List.sorted_cons.mp hs).1 x hx

abbrev chunkA : Chunk := { id := "c1", pageId := some "p1", title := "A" }
abbrev chunkB : Chunk := { id := "c2", pageId := some "p2", title := "B" }

/-- Score 0.4 on page p1. -/
abbrev resA04 : SearchResult := ⟨chunkA, mkRat 2 5⟩
/-- Score 0.3 on page p2. -/
abbrev resB03 : SearchResult := ⟨chunkB, mkRat 3 10⟩

/-- Spec scenario: threshold 0.75, fallback 0.6, raw scores [0.4, 0.3] —
the top-1 fallback fires and `fallbackApplied` is set. -/
theorem C1_threshold_fallback_policy_witness :
    prepareFilter (mkRat 3 4) (mkRat 3 5) [resA04, resB03] = ([resA04], true)
    ∧ ([resA04, resB03] : List SearchResult).Sorted (fun a b => b.score ≤ a.score)
    ∧ resB03.score ≤ resA04.score :=
  ⟨(C1_threshold_fallback_policy.1 (mkRat 3 4) (mkRat 3 5) [resA04, resB03]).trans (by decide),
   by decide,
   C1_threshold_fallback_policy.2 resA04 [resB03] [resA04, resB03] rfl (by decide)
     resB03 (by decide)⟩

/-- C2: the retrieval trace has exactly one entry per raw result, in raw
order, each with 1-based index and the score rounded to 4 decimals, and an
entry is `included` exactly when its result belongs to the filtered set
the answer actually uses — whichever branch produced that set.  The
hypothesis that raw chunk ids are distinct reflects the search client's
contract (one hit per indexed chunk). -/
theorem C2_trace_audit (thr fb : ℚ) (raw : List SearchResult)
    (h : (raw.map fun r => r.chunk.id).Nodup) :
    (mkTrace thr fb raw).results
      = raw.enum.map
          (fun p => mkTraceEntry (p.1 + 1) p.2 (decide (p.2 ∈ (prepareFilter thr fb raw).1)))
    ∧ (mkTrace thr fb raw).results.length = raw.length := by
  have hmain :
      (mkTrace thr fb raw).results
        = raw.enum.map
            (fun p => mkTraceEntry (p.1 + 1) p.2 (decide (p.2 ∈ (prepareFilter thr fb raw).1))) := by
    unfold mkTrace
    dsimp only
    refine List.map_congr_left ?_
    intro p hp
    have hmem : p.2 ∈ raw := snd_mem_of_mem_enumFrom raw 0 p hp
    rw [contains_id_eq_mem thr fb raw h p.2 hmem]
  refine ⟨hmain, ?_⟩
  rw [hmain]
  simp

abbrev chunkC : Chunk := { id := "c3", pageId := some "p3", title := "C" }

/-- Score 0.9 on page p3. -/
abbrev resC09 : SearchResult := ⟨chunkC, mkRat 9 10⟩

/-- Concrete audit-trail check: threshold 0.75, raw scores [0.9, 0.4]:
only the first hit is included, yet both appear in the trace. -/
theorem C2_trace_audit_witness :
    ((mkTrace (mkRat 3 4) (mkRat 3 5) [resC09, resA04]).results
      = [mkTraceEntry 1 resC09 true, mkTraceEntry 2 resA04 false])
    ∧ (mkTrace (mkRat 3 4) (mkRat 3 5) [resC09, resA04]).results.length = 2 := by
  have h := C2_trace_audit (mkRat 3 4) (mkRat 3 5) [resC09, resA04] (by decide)
  refine ⟨h.1.trans ?_, h.2.trans (by decide)⟩
  simp only [List.enum, List.enumFrom, List.map_cons, List.map_nil]
  refine congrArg₂ _ ?_ (congrArg₂ _ ?_ rfl)
  · exact congrArg _ (by decide)
  · exact congrArg _ (by decide)

/-- C3: the references produced by the context assembler are the
first-occurrence results of each deduplication key (pageId, falling back
to chunk id), numbered 1..N in first-seen order with N the number of
distinct keys; no key yields two references, and each reference carries
the data — in particular the score — of the first result that introduced
it (`numberFrom` builds the reference from exactly that result). -/
theorem C3_reference_numbering (rs : List SearchResult) :
    (buildContext rs).2 = numberFrom 0 (firstOccs rs)
    ∧ ((buildContext rs).2.map Reference.index) = List.range' 1 (distinctKeys rs).length
    ∧ ((buildContext rs).2.map Reference.pageId) = (distinctKeys rs).map some
    ∧ ((buildContext rs).2.map Reference.pageId).Nodup
    ∧ (distinctKeys rs).Nodup
    ∧ (∀ k, k ∈ distinctKeys rs ↔ ∃ r ∈ rs, resKey r = k) := by
  have h0 : (buildContext rs).2 = numberFrom 0 (firstOccs rs) := by
    unfold buildContext
    dsimp only
    rw [buildContextAux_refs rs [] [] []]
    simp [firstOccs]
  have hnodupKeys : (distinctKeys rs).Nodup := nodup_map_resKey_firstOccsAux rs []
  have hpageId : ((buildContext rs).2.map Reference.pageId) = (distinctKeys rs).map some := by
    rw [h0, numberFrom_map_pageId]
    simp [distinctKeys, firstOccs]
  refine ⟨h0, ?_, hpageId, ?_, hnodupKeys, ?_⟩
  · rw [h0, numberFrom_map_index]
    simp [distinctKeys]
  · rw [hpageId]
    exact hnodupKeys.map (Option.some_injective _)
  · intro k
    rw [distinctKeys, firstOccs, mem_map_resKey_firstOccsAux]
    simp

/-- A second chunk on page p3. -/
abbrev chunkC2 : Chunk := { id := "c4", pageId := some "p3", title := "C2" }

/-- Score 0.5, same page as `resC09`. -/
abbrev resC2 : SearchResult := ⟨chunkC2, mkRat 1 2⟩

/-- Concrete numbering check: three results over two pages (p3, p1, p3)
produce exactly the references 1 and 2, keyed p3 then p1. -/
theorem C3_reference_numbering_witness :
    ((buildContext [resC09, resA04, resC2]).2.map Reference.index) = [1, 2]
    ∧ ((buildContext [resC09, resA04, resC2]).2.map Reference.pageId)
        = [some "p3", some "p1"] := by
  have h := C3_reference_numbering [resC09, resA04, resC2]
  exact ⟨h.2.1.trans (by decide), h.2.2.1.trans (by decide)⟩

/-! ## Claims C7 and C9 -/

/-- C7: an empty or whitespace-only question makes both `answerQuestion`
and `createStreamingCompletion` fail with the input error before any
remote call: the call log is empty (no search, no provider call) and the
result is an error, not a response object. -/
theorem C7_empty_question_fails_fast (env : QAEnv) (cfg : QAConfig)
    (question : String) (chatHistory : Option String) (po : Option String)
    (h : jsTrim question = "") :
    answerQuestion env cfg question chatHistory po
      = (.error (.inputError "Question must not be empty"), [])
    ∧ createStreamingCompletion env cfg question chatHistory po
      = (.error (.inputError "Question must not be empty"), []) := by
  have hp : prepare env cfg question chatHistory
      = (.error (.inputError "Question must not be empty"), []) := by
    unfold prepare
    rw [if_pos h]
  constructor
  · unfold answerQuestion
    rw [hp]
  · unfold createStreamingCompletion
    rw [hp]

/-- A provider environment with an empty store and a silent provider. -/
abbrev emptyEnv : QAEnv :=
  { search := fun _ _ => []
    complete := fun _ => ""
    completeStream := fun _ => [] }

/-- Concrete engine configuration used in the closed scenarios. -/
abbrev testCfg : QAConfig :=
  { topK := 5
    similarityThreshold := mkRat 3 4
    fallbackThreshold := mkRat 3 5
    defaultProvider := "openai" }

/-- Spec scenario: a whitespace-only question is rejected with zero
remote calls by both entry points. -/
theorem C7_empty_question_fails_fast_witness :
    jsTrim "   " = ""
    ∧ answerQuestion emptyEnv testCfg "   " none none
        = (.error (.inputError "Question must not be empty"), [])
    ∧ createStreamingCompletion emptyEnv testCfg "   " none none
        = (.error (.inputError "Question must not be empty"), []) :=
  ⟨by decide,
   (C7_empty_question_fails_fast emptyEnv testCfg "   " none none (by decide)).1,
   (C7_empty_question_fails_fast emptyEnv testCfg "   " none none (by decide)).2⟩

/-- C9: the references and retrieval trace of a streaming completion are
fully determined by the question, chat history and raw search results:
they are unchanged under any change of the provider's completion/stream
behaviour (and of the provider override), and on success they are exactly
the values `prepare` computed before the stream handle existed. -/
theorem C9_stream_independent_metadata (cfg : QAConfig) (question : String)
    (chatHistory : Option String) (po₁ po₂ : Option String)
    (env₁ env₂ : QAEnv) (h : env₁.search = env₂.search) :
    ((createStreamingCompletion env₁ cfg question chatHistory po₁).1.map
        StreamingCompletion.references
      = (createStreamingCompletion env₂ cfg question chatHistory po₂).1.map
          StreamingCompletion.references)
    ∧ ((createStreamingCompletion env₁ cfg question chatHistory po₁).1.map
        StreamingCompletion.retrievalTrace
      = (createStreamingCompletion env₂ cfg question chatHistory po₂).1.map
          StreamingCompletion.retrievalTrace)
    ∧ (∀ pr : PrepareResult, (prepare env₁ cfg question chatHistory).1 = .ok pr →
        (createStreamingCompletion env₁ cfg question chatHistory po₁).1.map
            StreamingCompletion.references = .ok pr.references
        ∧ (createStreamingCompletion env₁ cfg question chatHistory po₁).1.map
            StreamingCompletion.retrievalTrace = .ok pr.retrievalTrace) := by
  have hprep : prepare env₁ cfg question chatHistory = prepare env₂ cfg question chatHistory := by
    unfold prepare
    rw [h]
  refine ⟨?_, ?_, ?_⟩
  · unfold createStreamingCompletion
    rw [hprep]
    rcases prepare env₂ cfg question chatHistory with ⟨res, calls⟩
    cases res <;> simp [Except.map]
  · unfold createStreamingCompletion
    rw [hprep]
    rcases prepare env₂ cfg question chatHistory with ⟨res, calls⟩
    cases res <;> simp [Except.map]
  · intro pr hpr
    unfold createStreamingCompletion
    rcases hp : prepare env₁ cfg question chatHistory with ⟨res, calls⟩
    rw [hp] at hpr
    simp only at hpr
    subst hpr
    simp [Except.map]

/-- The preparation result for question "hi" against an empty store. -/
abbrev prEmptyHi : PrepareResult :=
  { messages :=
      { question := "hi"
        chatHistory := none
        instructions := fallbackInstructions
        contextSections :=
          [("Retrieval Context",
            "No relevant Confluence context was retrieved above the similarity threshold.")] }
    references := []
    retrievalTrace :=
      { threshold := mkRat 3 4
        fallbackApplied := false
        fallbackThreshold := none
        results := [] } }

/-- Concrete check that the streamed metadata equals what `prepare`
computed, independently of the provider override. -/
theorem C9_stream_independent_metadata_witness :
    emptyEnv.search = emptyEnv.search
    ∧ (prepare emptyEnv testCfg "hi" none).1 = .ok prEmptyHi
    ∧ ((createStreamingCompletion emptyEnv testCfg "hi" none none).1.map
        StreamingCompletion.references = .ok [])
    ∧ ((createStreamingCompletion emptyEnv testCfg "hi" none none).1.map
        StreamingCompletion.retrievalTrace = .ok prEmptyHi.retrievalTrace) := by
  have hpr : (prepare emptyEnv testCfg "hi" none).1 = .ok prEmptyHi := by rfl
  have h9 := (C9_stream_independent_metadata testCfg "hi" none none (some "qwen")
    emptyEnv emptyEnv rfl).2.2 prEmptyHi hpr
  exact ⟨rfl, hpr, h9.1, h9.2⟩

/-! ## Helper lemmas for the graph claims -/

theorem mem_insertEdgeDesc {x e : GraphEdge} :
    ∀ {l : List GraphEdge}, x ∈ insertEdgeDesc l e ↔ x ∈ l ∨ x = e := by
  intro l
  induction l with
  | nil => simp [insertEdgeDesc]
  | cons f fs ih =>
    by_cases h : f.weight < e.weight
    · simp only [insertEdgeDesc, if_pos h, List.mem_cons]
      tauto
    · simp only [insertEdgeDesc, if_neg h, List.mem_cons, ih]
      tauto

theorem sorted_insertEdgeDesc (e : GraphEdge) :
    ∀ (l : List GraphEdge), l.Sorted (fun a b => b.weight ≤ a.weight) →
      (insertEdgeDesc l e).Sorted (fun a b => b.weight ≤ a.weight) := by
  intro l
  induction l with
  | nil => intro _; simp [insertEdgeDesc]
  | cons f fs ih =>
    intro h
    rcases List.sorted_cons.mp h with ⟨hf, hfs⟩
    by_cases hw : f.weight < e.weight
    · rw [insertEdgeDesc, if_pos hw]
      refine List.sorted_cons.mpr ⟨?_, h⟩
      intro b hb
      rcases List.mem_cons.mp hb with rfl | hb
      · exact le_of_lt hw
      · exact le_trans (hf b hb) (le_of_lt hw)
    · rw [insertEdgeDesc, if_neg hw]
      refine List.sorted_cons.mpr ⟨?_, ih hfs⟩
      intro b hb
      rcases mem_insertEdgeDesc.mp hb with hb | rfl
      · exact hf b hb
      · exact not_lt.mp hw

theorem sorted_foldl_insertEdgeDesc :
    ∀ (es acc : List GraphEdge),
      acc.Sorted (fun a b => b.weight ≤ a.weight) →
      (es.foldl insertEdgeDesc acc).Sorted (fun a b => b.weight ≤ a.weight) := by
  intro es
  induction es with
  | nil => intro acc h; exact h
  | cons e rest ih =>
    intro acc h
    exact ih _ (sorted_insertEdgeDesc e acc h)

theorem sortEdgesDesc_sorted (es : List GraphEdge) :
    (sortEdgesDesc es).Sorted (fun a b => b.weight ≤ a.weight) :=
  sorted_foldl_insertEdgeDesc es [] (by simp)

theorem mem_foldl_insertEdgeDesc :
    ∀ (es acc : List GraphEdge) (x : GraphEdge),
      x ∈ es.foldl insertEdgeDesc acc ↔ x ∈ acc ∨ x ∈ es := by
  intro es
  induction es with
  | nil => intro acc x; simp
  | cons e rest ih =>
    intro acc x
    rw [List.foldl_cons, ih]
    rw [show (x ∈ insertEdgeDesc acc e) ↔ _ from mem_insertEdgeDesc]
    simp only [List.mem_cons]
    tauto

theorem mem_sortEdgesDesc (es : List GraphEdge) (x : GraphEdge) :
    x ∈ sortEdgesDesc es ↔ x ∈ es := by
  rw [sortEdgesDesc, mem_foldl_insertEdgeDesc]
  simp

/-- Degree of a page id in an edge list, counting source and target
occurrences — the claim-side description of "degree in the final edge
set". -/
def specDegree (edges : List GraphEdge) (id : String) : Nat :=
  edges.countP (fun e => e.source == id) + edges.countP (fun e => e.target == id)

/-- The degree the code actually uses for sizing: the final-edge degree
when the node touches an edge, and the default `?? 1` otherwise. -/
def specDegreeQ (edges : List GraphEdge) (id : String) : ℚ :=
  ((if specDegree edges id = 0 then 1 else specDegree edges id : Nat) : ℚ)

theorem lookup_bumpDeg (s id : String) :
    ∀ (m : List (String × Nat)),
      (bumpDeg m s).lookup id
        = if s = id then some (((m.lookup id).getD 0) + 1) else m.lookup id := by
  intro m
  induction m with
  | nil =>
    by_cases h : s = id
    · subst h
      simp [bumpDeg, List.lookup]
    · have hb : (id == s) = false := beq_eq_false_iff_ne.mpr (fun hh => h hh.symm)
      simp [bumpDeg, List.lookup, hb, h]
  | cons p rest ih =>
    obtain ⟨k, v⟩ := p
    by_cases hk : k = s
    · subst hk
      rw [bumpDeg, if_pos rfl]
      by_cases hid : k = id
      · subst hid
        simp [List.lookup]
      · have hb : (id == k) = false := beq_eq_false_iff_ne.mpr (fun hh => hid hh.symm)
        simp [List.lookup, hb, hid]
    · rw [bumpDeg, if_neg hk]
      by_cases hid : k = id
      · subst hid
        have hs : ¬ s = k := fun hh => hk hh.symm
        simp [List.lookup, hs]
      · have hb : (id == k) = false := beq_eq_false_iff_ne.mpr (fun hh => hid hh.symm)
        simp [List.lookup, hb, ih]

theorem lookup_degree_foldl (id : String) :
    ∀ (edges : List GraphEdge) (m : List (String × Nat)),
      (((edges.foldl (fun m e => bumpDeg (bumpDeg m e.source) e.target) m).lookup id).getD 0
          = ((m.lookup id).getD 0) + specDegree edges id)
      ∧ ((edges.foldl (fun m e => bumpDeg (bumpDeg m e.source) e.target) m).lookup id = none
          ↔ (m.lookup id = none ∧ specDegree edges id = 0)) := by
  intro edges
  induction edges with
  | nil => intro m; simp [specDegree]
  | cons e rest ih =>
    intro m
    rw [List.foldl_cons]
    have ihm := ih (bumpDeg (bumpDeg m e.source) e.target)
    have hspec : specDegree (e :: rest) id
        = ((if e.source = id then 1 else 0) + (if e.target = id then 1 else 0))
          + specDegree rest id := by
      simp only [specDegree, List.countP_cons, beq_iff_eq]
      split <;> split <;> omega
    have hstep :
        ((bumpDeg (bumpDeg m e.source) e.target).lookup id).getD 0
          = ((m.lookup id).getD 0)
            + ((if e.source = id then 1 else 0) + (if e.target = id then 1 else 0)) := by
      simp only [lookup_bumpDeg]
      by_cases hs : e.source = id <;> by_cases ht : e.target = id <;> simp [hs, ht]
    have hnone :
        (bumpDeg (bumpDeg m e.source) e.target).lookup id = none
          ↔ (m.lookup id = none ∧ e.source ≠ id ∧ e.target ≠ id) := by
      simp only [lookup_bumpDeg]
      by_cases hs : e.source = id <;> by_cases ht : e.target = id <;> simp [hs, ht]
    constructor
    · rw [ihm.1, hstep, hspec]
      omega
    · rw [ihm.2, hnone, hspec]
      constructor
      · rintro ⟨⟨h1, h2, h3⟩, h4⟩
        exact ⟨h1, by simp [h2, h3, h4]⟩
      · rintro ⟨h1, h2⟩
        have hs : e.source ≠ id := by
          intro hh
          rw [if_pos hh] at h2
          omega
        have ht : e.target ≠ id := by
          intro hh
          rw [if_pos hh] at h2
          omega
        have hrest : specDegree rest id = 0 := by
          rw [if_neg hs, if_neg ht] at h2
          omega
        exact ⟨⟨h1, hs, ht⟩, hrest⟩

theorem degreeMap_lookup_getD (edges : List GraphEdge) (id : String) :
    ((((degreeMap edges).lookup id).getD 1 : Nat) : ℚ) = specDegreeQ edges id := by
  have h := lookup_degree_foldl id edges []
  unfold degreeMap specDegreeQ
  by_cases hz : specDegree edges id = 0
  · have : (List.foldl (fun m e => bumpDeg (bumpDeg m e.source) e.target) [] edges).lookup id
        = none := by
      rw [h.2]
      exact ⟨by simp [List.lookup], hz⟩
    rw [this]
    simp [hz]
  · rcases ho : (List.foldl (fun m e => bumpDeg (bumpDeg m e.source) e.target) [] edges).lookup id
      with _ | d
    · rw [h.2] at ho
      exact absurd ho.2 hz
    · have hd : d = specDegree edges id := by
        have := h.1
        rw [ho] at this
        simpa [List.lookup] using this
      rw [ho]
      simp [hd, hz]

theorem edgeKey_comm (a b : String) : edgeKey a b = edgeKey b a := by
  unfold edgeKey
  rcases lt_trichotomy a.data b.data with h | h | h
  · rw [if_pos h, if_neg (not_lt.mpr (le_of_lt h))]
  · have hab : a = b := by
      cases a
      cases b
      simp_all
    subst hab
    simp
  · rw [if_neg (not_lt.mpr (le_of_lt h)), if_pos h]

theorem bumpEdge_bumpEdge (k : String × String) (w₁ w₂ : ℚ) :
    ∀ (es : EdgeMap), bumpEdge (bumpEdge es k w₁) k w₂ = bumpEdge es k (w₁ + w₂) := by
  intro es
  induction es with
  | nil => simp [bumpEdge, add_assoc]
  | cons p rest ih =>
    obtain ⟨k', v⟩ := p
    by_cases h : k' = k
    · subst h
      simp [bumpEdge, add_assoc]
    · simp [bumpEdge, h, ih]

/-! ## Claims C4, C8, C10 -/

/-- Seed page of the concrete graph scenarios. -/
abbrev entryA : VectorCacheEntry :=
  { pageId := "A", pageTitle := "TA", spaceKey := some "SK", chunkCount := 2,
    chunkIds := ["a1", "a2"] }

/-- Neighbor page of the concrete graph scenarios. -/
abbrev entryB : VectorCacheEntry :=
  { pageId := "B", pageTitle := "TB", spaceKey := none, chunkCount := 1,
    chunkIds := ["b1"] }

/-- A chunk living on page B. -/
abbrev chunkOnB : Chunk := { id := "b1", pageId := some "B", title := "TB" }

abbrev pagesAB : PageMap := [("A", entryA), ("B", entryB)]

/-- Store for the C4 scenario: the two synthetic seed queries return the
same neighbor chunk with scores 0.5 and 0.4; the neighbor probe returns
nothing. -/
abbrev storeC4 : GraphSearch := fun q _ =>
  if q = "TA" then .ok [⟨chunkOnB, mkRat 1 2⟩]
  else if q = "TA SK" then .ok [⟨chunkOnB, mkRat 2 5⟩]
  else .ok []

/-- Node A as returned (degree 1, `lg = 0`, so size clamps to 6). -/
abbrev nodeAFinal : GraphNode :=
  { id := "A", label := "TA", size := 6, chunkCount := 2, spaceKey := some "SK" }

/-- Node B as returned (degree 1, `lg = 0`, so size clamps to 6). -/
abbrev nodeBFinal : GraphNode :=
  { id := "B", label := "TB", size := 6, chunkCount := 1, spaceKey := none }

/-- C4: graph edge keys are canonicalized to the unordered pair (smaller
page id first), so contributions from different probes to the same
unordered pair accumulate additively into one edge: the canonical key is
symmetric, two accumulations on the same key merge into their sum, a
qualifying second-hop result adds `score * 0.5` on the canonical key, and
the concrete two-probe scenario (scores 0.5 and 0.4, threshold 0.25)
returns a single A–B edge of weight 0.9. -/
theorem C4_edge_weight_aggregation :
    (∀ a b : String, edgeKey a b = edgeKey b a)
    ∧ (∀ (es : EdgeMap) (k : String × String) (w₁ w₂ : ℚ),
        bumpEdge (bumpEdge es k w₁) k w₂ = bumpEdge es k (w₁ + w₂))
    ∧ (∀ (known : List GraphNode) (thr : ℚ) (n : String) (es : EdgeMap) (r : SearchResult),
        chunkPageId r.chunk ≠ n →
        (known.any fun nd => nd.id == chunkPageId r.chunk) = true →
        ¬ r.score < thr →
        processNeighborResult known thr n es r
          = bumpEdge es (edgeKey n (chunkPageId r.chunk)) (r.score * (1 / 2)))
    ∧ graphGET (fun _ => 0) storeC4 pagesAB (some "A") 5 5 50 (mkRat 1 4)
        = (.ok [nodeAFinal, nodeBFinal] [⟨"A", "B", mkRat 9 10⟩],
           [("TA", 5), ("TA SK", 5), ("TB", 3)]) := by
  refine ⟨edgeKey_comm, fun es k w₁ w₂ => bumpEdge_bumpEdge k w₁ w₂ es, ?_, ?_⟩
  · intro known thr n es r h1 h2 h3
    have hb : (chunkPageId r.chunk == n) = false := beq_eq_false_iff_ne.mpr h1
    simp only [processNeighborResult]
    rw [hb, h2]
    simp [h3]
  · have hall : graphGET (fun _ => 0) storeC4 pagesAB (some "A") 5 5 50 (mkRat 1 4)
        = (.ok
            [{ id := "A", label := "TA", size := min 18 (max 6 (((1 : Nat) : ℚ) + (0 : ℚ) * 2)),
               chunkCount := 2, spaceKey := some "SK" },
             { id := "B", label := "TB", size := min 18 (max 6 (((1 : Nat) : ℚ) + (0 : ℚ) * 2)),
               chunkCount := 1, spaceKey := none }]
            [⟨"A", "B", mkRat 1 2 + mkRat 2 5⟩],
           [("TA", 5), ("TA SK", 5), ("TB", 3)]) := rfl
    rw [hall]
    norm_num [nodeAFinal, nodeBFinal]

/-- Node with id B at its discovery size, used to instantiate the
second-hop conjunct of C4. -/
abbrev nodeBDisc : GraphNode := mkNode entryB

/-- Concrete instantiation of every part of C4, including the
second-hop half-weight accumulation onto the reversed canonical key. -/
theorem C4_edge_weight_aggregation_witness :
    edgeKey "B" "A" = edgeKey "A" "B"
    ∧ bumpEdge (bumpEdge [] ("A", "B") (mkRat 1 2)) ("A", "B") (mkRat 2 5)
        = bumpEdge [] ("A", "B") (mkRat 1 2 + mkRat 2 5)
    ∧ processNeighborResult [nodeBDisc] (mkRat 1 4) "A" [] ⟨chunkOnB, mkRat 1 2⟩
        = bumpEdge [] (edgeKey "A" "B") (mkRat 1 2 * (1 / 2)) :=
  ⟨C4_edge_weight_aggregation.1 "B" "A",
   C4_edge_weight_aggregation.2.1 [] ("A", "B") (mkRat 1 2) (mkRat 2 5),
   C4_edge_weight_aggregation.2.2.1 [nodeBDisc] (mkRat 1 4) "A" [] ⟨chunkOnB, mkRat 1 2⟩
     (by decide) (by decide) (by decide)⟩

/-- Store whose behaviour never matters in the scenarios below. -/
abbrev idleStore : GraphSearch := fun _ _ => .ok []

/-- C8: a seeded request whose seed id is not in the page cache yields the
distinct 404 response with its error message — not the catch-all 500 —
and, since this holds for every store, no vector search is consulted: the
call log is empty. -/
theorem C8_unknown_seed_not_found (lg : Nat → ℚ) (store : GraphSearch) (pages : PageMap)
    (sid : String) (ms tk mn : Nat) (th : ℚ)
    (h : pages.lookup sid = none) :
    graphGET lg store pages (some sid) ms tk mn th
      = (.notFound "seedPageId not found in vector cache", []) := by
  dsimp only [graphGET]
  rw [h]

/-- Concrete unknown-seed request: 404 with zero search calls. -/
theorem C8_unknown_seed_not_found_witness :
    graphGET (fun _ => 0) idleStore pagesAB (some "missing") 5 5 50 (mkRat 1 4)
      = (.notFound "seedPageId not found in vector cache", []) :=
  C8_unknown_seed_not_found (fun _ => 0) idleStore pagesAB "missing" 5 5 50 (mkRat 1 4)
    (by decide)

/-- C10: the seeded graph response is independent of `maxSeeds`: the slice
of seed chunk ids it selects is never used by any search query, so two
runs differing only in `maxSeeds` return identical responses and issue
identical search calls. -/
theorem C10_maxSeeds_irrelevant (lg : Nat → ℚ) (store : GraphSearch) (pages : PageMap)
    (sid : String) (ms₁ ms₂ tk mn : Nat) (th : ℚ) :
    graphGET lg store pages (some sid) ms₁ tk mn th
      = graphGET lg store pages (some sid) ms₂ tk mn th := rfl

/-! ## Claims C5 and C6 -/

/-- C5 (amended): the final response is assembled in order — nodes
truncated to `maxNodes` in first-discovered order, then edges filtered to
surviving endpoints, sorted by descending weight and capped at
`max(20, maxNodes*2)` — and every returned node's size is
`min(18, max(6, d + lg(chunkCount+1)*2))` where `d` is the node's degree
in the final (post-filter, post-cap) edge set when positive, and the
code's `?? 1` default otherwise: a node with no surviving edge gets 1,
not 0 (`specDegreeQ`). -/
theorem C5_final_assembly_amended (lg : Nat → ℚ) (nodeList : List GraphNode)
    (edgeMap : EdgeMap) (maxNodes : Nat) :
    (graphAssemble lg nodeList edgeMap maxNodes).1.length ≤ maxNodes
    ∧ (graphAssemble lg nodeList edgeMap maxNodes).2.length ≤ max 20 (maxNodes * 2)
    ∧ (graphAssemble lg nodeList edgeMap maxNodes).2.Sorted (fun a b => b.weight ≤ a.weight)
    ∧ (∀ e ∈ (graphAssemble lg nodeList edgeMap maxNodes).2,
        e.source ∈ (graphAssemble lg nodeList edgeMap maxNodes).1.map GraphNode.id
        ∧ e.target ∈ (graphAssemble lg nodeList edgeMap maxNodes).1.map GraphNode.id)
    ∧ (graphAssemble lg nodeList edgeMap maxNodes).1.map GraphNode.id
        = (nodeList.take maxNodes).map GraphNode.id
    ∧ (∀ n ∈ (graphAssemble lg nodeList edgeMap maxNodes).1,
        n.size = min 18 (max 6 (specDegreeQ (graphAssemble lg nodeList edgeMap maxNodes).2 n.id
          + lg (n.chunkCount + 1) * 2))) := by
  simp only [graphAssemble]
  refine ⟨?_, ?_, ?_, ?_, ?_, ?_⟩
  · simp only [List.length_map, List.length_take]
    exact min_le_left _ _
  · exact List.length_take_le _ _
  · exact List.Pairwise.sublist (List.take_sublist _ _) (sortEdgesDesc_sorted _)
  · intro e he
    have hsorted : e ∈ sortEdgesDesc (((edgeMap.map fun kv => GraphEdge.mk kv.1.1 kv.1.2 kv.2).filter
        fun e => ((nodeList.take maxNodes).map fun n => n.id).contains e.source
          && ((nodeList.take maxNodes).map fun n => n.id).contains e.target)) :=
      (List.take_sublist _ _).subset he
    have hkept := (mem_sortEdgesDesc _ _).mp hsorted
    have hpred := (List.mem_filter.mp hkept).2
    have hmapid : (List.map
        (fun n => { n with size := min 18 (max 6 ((((((degreeMap
          ((sortEdgesDesc (((edgeMap.map fun kv => GraphEdge.mk kv.1.1 kv.1.2 kv.2).filter
            fun e => ((nodeList.take maxNodes).map fun n => n.id).contains e.source
              && ((nodeList.take maxNodes).map fun n => n.id).contains e.target))).take
                (max 20 (maxNodes * 2)))).lookup n.id).getD 1 : Nat)) : ℚ)
          + lg (n.chunkCount + 1) * 2)) : GraphNode })
        (nodeList.take maxNodes)).map GraphNode.id
          = (nodeList.take maxNodes).map (fun n => n.id) := by
      rw [List.map_map]
      exact List.map_congr_left fun n _ => rfl
    rw [Bool.and_eq_true] at hpred
    have hc : ∀ (l : List String) (a : String), l.contains a = decide (a ∈ l) :=
      fun l a => List.elem_eq_mem a l
    constructor
    · rw [hmapid]
      have h1 := hpred.1
      rwa [hc, decide_eq_true_eq] at h1
    · rw [hmapid]
      have h2 := hpred.2
      rwa [hc, decide_eq_true_eq] at h2
  · rw [List.map_map]
    exact List.map_congr_left fun n _ => rfl
  · intro n hn
    rcases List.mem_map.mp hn with ⟨n₀, hn₀, rfl⟩
    simp only
    rw [degreeMap_lookup_getD]

/-- Rational stand-in for `Math.log10` pinned at the one argument the
counterexample exercises: `log10 318 = 2.5024…`, here `2502/1000`. -/
abbrev lg318 : Nat → ℚ := fun _ => mkRat 2502 1000

/-- A cached page with 317 chunks. -/
abbrev entry317 : VectorCacheEntry :=
  { pageId := "P", pageTitle := "T", spaceKey := none, chunkCount := 317, chunkIds := [] }

abbrev pages317 : PageMap := [("P", entry317)]

/-- Refutation of C5 as stated: a seeded build whose probes return nothing
leaves the seed node with no surviving edge; the response sizes it with
degree 1 (the `?? 1` default), giving 6.004, while the claimed formula
with degree 0 gives 6. -/
theorem C5_final_assembly_counterexample :
    graphGET lg318 idleStore pages317 (some "P") 5 5 50 (mkRat 1 4)
      = (.ok [{ id := "P", label := "T", size := mkRat 1501 250, chunkCount := 317,
                spaceKey := none }] [],
         [("T", 5), ("T", 5)])
    ∧ min (18 : ℚ) (max 6 ((0 : ℚ) + lg318 (317 + 1) * 2)) = 6
    ∧ (mkRat 1501 250 : ℚ) ≠ 6 := by
  refine ⟨?_, by norm_num [lg318], by norm_num⟩
  have hall : graphGET lg318 idleStore pages317 (some "P") 5 5 50 (mkRat 1 4)
      = (.ok [{ id := "P", label := "T",
                size := min 18 (max 6 (((1 : Nat) : ℚ) + lg318 (317 + 1) * 2)),
                chunkCount := 317, spaceKey := none }] [],
         [("T", 5), ("T", 5)]) := rfl
  rw [hall]
  norm_num [lg318]

/-- The one node of the C5 scenario as the route returns it. -/
abbrev c5Node : GraphNode :=
  { id := "P", label := "T",
    size := min 18 (max 6 (((1 : Nat) : ℚ) + lg318 (317 + 1) * 2)),
    chunkCount := 317, spaceKey := none }

/-- Concrete instantiation of the amended sizing rule on the edgeless
seed node. -/
theorem C5_final_assembly_amended_witness :
    c5Node ∈ (graphAssemble lg318 [mkNode entry317] [] 50).1
    ∧ c5Node.size
        = min 18 (max 6 (specDegreeQ (graphAssemble lg318 [mkNode entry317] [] 50).2 c5Node.id
            + lg318 (c5Node.chunkCount + 1) * 2)) := by
  have hmem : c5Node ∈ (graphAssemble lg318 [mkNode entry317] [] 50).1 := by
    have hh : (graphAssemble lg318 [mkNode entry317] [] 50).1 = [c5Node] := rfl
    rw [hh]
    exact List.mem_singleton.mpr rfl
  exact ⟨hmem,
    (C5_final_assembly_amended lg318 [mkNode entry317] [] 50).2.2.2.2.2 c5Node hmem⟩

/-- The seed page of the C6 scenario. -/
abbrev entryC6 : VectorCacheEntry :=
  { pageId := "P", pageTitle := "T", spaceKey := some "S", chunkCount := 1, chunkIds := ["x"] }

abbrev pagesC6 : PageMap := [("P", entryC6)]

/-- Store for which the first synthetic probe succeeds and the second
rejects. -/
abbrev storeC6 : GraphSearch := fun q _ =>
  if q = "T" then .ok []
  else if q = "T S" then .error "probe failed"
  else .ok []

/-- C6 (amended): a failed probe search aborts the whole graph build —
when the first synthetic probe succeeds and the second rejects with
message `e`, the request returns the catch-all 500-equivalent
`serverError e` after logging exactly those two calls; no partial graph
is produced. -/
theorem C6_probe_failure_aborts (lg : Nat → ℚ) (store : GraphSearch) (pages : PageMap)
    (sid : String) (seed : VectorCacheEntry) (sk : String) (ms tk mn : Nat) (th : ℚ)
    (rs : List SearchResult) (e : String)
    (hseed : pages.lookup sid = some seed)
    (hsk : seed.spaceKey = some sk)
    (h1 : store seed.pageTitle tk = .ok rs)
    (h2 : store (seed.pageTitle ++ " " ++ sk) tk = .error e) :
    graphGET lg store pages (some sid) ms tk mn th
      = (.serverError e, [(seed.pageTitle, tk), (seed.pageTitle ++ " " ++ sk, tk)]) := by
  dsimp only [graphGET]
  rw [hseed]
  dsimp only
  rw [hsk]
  dsimp only [firstPass]
  rw [h1, h2]

/-- Concrete instantiation of the abort behaviour with every hypothesis
checked on the scenario store. -/
theorem C6_probe_failure_aborts_witness :
    pagesC6.lookup "P" = some entryC6
    ∧ storeC6 "T" 5 = .ok []
    ∧ storeC6 ("T" ++ " " ++ "S") 5 = .error "probe failed"
    ∧ graphGET (fun _ => 0) storeC6 pagesC6 (some "P") 5 5 50 (mkRat 1 4)
        = (.serverError "probe failed", [("T", 5), ("T" ++ " " ++ "S", 5)]) := by
  refine ⟨rfl, rfl, rfl, ?_⟩
  exact C6_probe_failure_aborts (fun _ => 0) storeC6 pagesC6 "P" entryC6 "S" 5 5 50
    (mkRat 1 4) [] "probe failed" rfl rfl rfl rfl

/-- Refutation of C6 as stated: with the first probe succeeding and the
second failing, the request does not return a partial graph — it returns
the 500-equivalent error response. -/
theorem C6_probe_failure_counterexample :
    graphGET (fun _ => 0) storeC6 pagesC6 (some "P") 5 5 50 (mkRat 1 4)
      = (.serverError "probe failed", [("T", 5), ("T S", 5)]) := rfl

end DocQA
